import Mathlib

/-!
Shallow embedding of the kong-route-tester program (main.go) and proofs of
the specification claims about it.

Strings are modelled as Lean `String`s; where character-level scanning is
needed (substring search, replacement, template resolution) we work on the
underlying `List Char`.  Machine `int`s that can be compared against zero
(the `maxRequests` flag) are modelled as `Int`; counters that only grow are
`Nat`.  Network effects are abstracted: `testRoutes` is parametrised by an
endpoint function standing for `testEndpoint`, which in the program fills
the probe fields of a `TestResult` before doing any I/O.
-/

set_option maxRecDepth 4096

/-! ### Configuration data model (main.go lines 18-54) -/

/-- A Kong plugin.  The program only ever inspects `name`; the opaque
`config` mapping is never read by the core logic and is not modelled. -/
structure Plugin where
  name : String
deriving DecidableEq, Repr

/-- A Kong route (main.go `Route`). -/
structure Route where
  name : String
  paths : List String
  methods : List String
  hosts : List String
  plugins : List Plugin
  priority : Int
deriving DecidableEq, Repr

/-- A Kong service (main.go `Service`). -/
structure Service where
  name : String
  url : String
  plugins : List Plugin
  routes : List Route
deriving DecidableEq, Repr

/-- The whole configuration (main.go `KongConfig`). -/
structure KongConfig where
  services : List Service
deriving DecidableEq, Repr

/-- The outcome of one probe (main.go `TestResult`).  The Go `Error error`
field is modelled by a Bool recording whether a transport error is
present. -/
structure TestResult where
  service : String
  route : String
  path : String
  method : String
  requiresAuth : Bool
  statusCode : Nat
  error : Bool
  message : String
deriving DecidableEq, Repr

/-- The test-configuration flags consumed by `testRoutes` (main.go lines
57-66).  `verbose` only affects printing and `dryRun` only affects the
abstracted `testEndpoint`, so neither is needed here.  `maxRequests` is a
Go `int` and may be non-positive (0 = unlimited). -/
structure TestConfig where
  testAuth : Bool
  testUnauth : Bool
  maxRequests : Int
deriving DecidableEq, Repr

/-! ### Character-list string primitives

These model the Go standard-library functions used by the program:
`strings.Contains`, `strings.ReplaceAll`, and the byte scanning performed
by `regexp.ReplaceAllFunc` for the one fixed pattern in
`handleTemplating`. -/

/-- Does `l` start with `pat`? (model of a prefix test). -/
def startsWithL : List Char → List Char → Bool
  | [], _ => true
  | _ :: _, [] => false
  | p :: ps, c :: cs => p == c && startsWithL ps cs

/-- Does `hay` contain `nd` as a contiguous run? (model of
`strings.Contains`). -/
def hasSubL : List Char → List Char → Bool
  | [], nd => startsWithL nd []
  | c :: t, nd => startsWithL nd (c :: t) || hasSubL t nd

/-- Model of `strings.Contains(s, sub)`. -/
def strContains (s sub : String) : Bool :=
  hasSubL s.data sub.data

/-- Scanner underlying the model of `strings.ReplaceAll`: while the skip
counter is positive the characters still covered by the last match are
consumed; at zero, a match of `pat` emits `rep` and skips the rest of
the matched text, and otherwise one character is copied. -/
def replScan (pat rep : List Char) : Nat → List Char → List Char
  | _, [] => []
  | Nat.succ k, _ :: t => replScan pat rep k t
  | 0, c :: t =>
    if startsWithL pat (c :: t) then rep ++ replScan pat rep (pat.length - 1) t
    else c :: replScan pat rep 0 t

/-- Model of `strings.ReplaceAll`: replace every non-overlapping
occurrence of `pat` by `rep`, scanning left to right.  All patterns used
by the program are non-empty. -/
def replaceAllL (pat rep : List Char) (l : List Char) : List Char :=
  replScan pat rep 0 l

/-- Model of `strings.ReplaceAll` on `String`s. -/
def replaceAllStr (s pat rep : String) : String :=
  ⟨replaceAllL pat.data rep.data s.data⟩

/-! ### Template resolver (main.go `handleTemplating`, lines 103-125)

The Go code applies `regexp.ReplaceAllFunc` with the fixed pattern
matching a dollar sign, an opening brace, a non-empty run of characters
other than colon and closing brace (the variable name), an optional
colon-op-default segment, and a closing brace.  We model the scan
character by character, which coincides with the leftmost non-overlapping
matching that `ReplaceAllFunc` performs for this pattern. -/

/-- The opening-brace character. -/
def lbrace : Char := Char.ofNat 123

/-- The closing-brace character. -/
def rbrace : Char := Char.ofNat 125

/-- Try to recognise a placeholder body at the start of `l`, which is the
text immediately after a dollar sign and opening brace.  On success,
return the interior text of the placeholder (everything strictly between
the braces, as `regexp` captures it) together with the number of
characters of `l` consumed (interior plus the closing brace). -/
def parsePlaceholder (l : List Char) : Option (List Char × Nat) :=
  let name := l.takeWhile (fun c => !(c == ':') && !(c == rbrace))
  if name.length == 0 then none
  else
    match l.drop name.length with
    | [] => none
    | c :: rest2 =>
      if c == rbrace then some (name, name.length + 1)
      else if c == ':' then
        match rest2 with
        | [] => none
        | op :: rest3 =>
          if op == '?' || op == '=' then
            let dflt := rest3.takeWhile (fun ch => !(ch == rbrace))
            match rest3.drop dflt.length with
            | [] => none
            | c2 :: _ =>
              if c2 == rbrace then
                some (name ++ ':' :: op :: dflt, name.length + 2 + dflt.length + 1)
              else none
          else none
      else none

/-- The fixed fallback address substituted for unset
service-address-style variables (main.go line 118). -/
def svcFallback : List Char := "http://services.sms.community:10000".data

/-- The fixed generic placeholder string (main.go line 121). -/
def placeholderText : List Char := "http://placeholder".data

/-- Resolution of a single variable name, given the process environment
`env` (where the empty list stands for unset-or-empty, as `os.Getenv`
reports both identically): the environment value verbatim if non-empty,
else the fixed service address if the name contains `SERVICE_ADDRESS`,
else the generic placeholder (main.go lines 111-121). -/
def resolveName (env : List Char → List Char) (name : List Char) : List Char :=
  let value := env name
  if value ≠ [] then value
  else if hasSubL name "SERVICE_ADDRESS".data then svcFallback
  else placeholderText

/-- Model of `handleTemplating`: scan the text, replacing each placeholder
by `resolveName` applied to the part of the interior before the first
colon (the Go code splits the interior on colons and keeps the head). -/
def handleTemplating (env : List Char → List Char) : List Char → List Char
  | [] => []
  | c :: rest =>
    if c == '$' then
      match rest with
      | [] => [c]
      | c2 :: rest2 =>
        if c2 == lbrace then
          match parsePlaceholder rest2 with
          | some (inner, n) =>
            resolveName env (inner.takeWhile (fun ch => !(ch == ':'))) ++
              handleTemplating env (rest2.drop n)
          | none => c :: handleTemplating env (c2 :: rest2)
        else c :: handleTemplating env (c2 :: rest2)
    else c :: handleTemplating env rest
termination_by l => l.length
decreasing_by
  · simp only [List.length_drop, List.length_cons]
    omega
  · simp
  · simp
  · simp

/-! ### Auth classifier (main.go `hasAuthPlugin`, lines 187-203) -/

/-- True iff the route's plugin list or the owning service's plugin list
contains a plugin named `auth` (the Go code scans the route's plugins,
then the service's). -/
def hasAuthPlugin (route : Route) (service : Service) : Bool :=
  route.plugins.any (fun p => p.name == "auth") ||
    service.plugins.any (fun p => p.name == "auth")

/-! ### Path materializer (main.go `expandRegexPath`, lines 205-226)

The Go function builds a `map[string]string` literal and ranges over it,
applying `strings.ReplaceAll` for each entry.  Go map iteration order is
unspecified and varies between executions, so the function is modelled
with the iteration order as an explicit parameter;
`regexReplacements` lists the entries in their source-text order. -/

/-- The replacement table, in the order the entries appear in the source
text of the map literal. -/
def regexReplacements : List (String × String) :=
  [("(?<client_id>[0-9a-fA-F-]+)", "3a45625e-fd29-47a5-8294-e30fe2d3d391"),
   ("(?<seat_id>[0-9a-fA-F-]+)", "123e4567-e89b-12d3-a456-426614174000"),
   ("(?<invite_token>[0-9a-fA-F-]+)", "987fcdeb-51a2-43e1-b210-0123456789ab"),
   ("(?<test_id>[0-9a-fA-F-]+)", "test-id-123"),
   ("(?<user_id>[^/]+)", "user123"),
   ("(?<embed_id>[0-9a-fA-F-]+)", "embed-456"),
   ("[0-9a-fA-F-]+", "abc123def456"),
   ("[a-zA-Z0-9_-]+", "test-value"),
   ("[^/]+", "example"),
   ("(.*)", "path")]

/-- `expandRegexPath` with the map iteration order made explicit. -/
def expandRegexPathOrd (table : List (String × String)) (path : String) : String :=
  table.foldl (fun acc pr => replaceAllStr acc pr.1 pr.2) path

/-- `expandRegexPath` under the source-text iteration order. -/
def expandRegexPath (path : String) : String :=
  expandRegexPathOrd regexReplacements path

/-! ### Probe executor (main.go `testRoutes`, lines 127-185)

`testEndpoint` performs network I/O and is abstracted as a function
`ep : service name → route name → path → method → auth flag → TestResult`.
The nested loops with the early `return results` on budget exhaustion are
modelled by threading a state with a `halted` flag that freezes all
remaining iterations, which yields exactly the results the early return
produces. -/

/-- The endpoint abstraction replacing `testEndpoint`. -/
abbrev Endpoint := String → String → String → String → Bool → TestResult

/-- `testEndpoint` fills the probe fields of the result before doing any
I/O (main.go lines 229-235); this endpoint records exactly that
construction with no network activity. -/
def recordProbe : Endpoint := fun s r p m a =>
  { service := s, route := r, path := p, method := m, requiresAuth := a,
    statusCode := 0, error := false, message := "" }

/-- Loop state of `testRoutes`: accumulated results, the global request
counter, and whether the early `return` has fired. -/
structure LoopSt where
  results : List TestResult
  count : Nat
  halted : Bool
deriving DecidableEq, Repr

/-- Should this service be skipped (main.go lines 133-141)? -/
def skipService (s : Service) : Bool :=
  strContains s.name "test" || strContains s.name "health-check" ||
    s.name == "atlantis" || s.name == "atlantis-legacy"

/-- The innermost loop over methods (main.go lines 168-179): before each
probe, if a positive budget is exhausted, return immediately; otherwise
issue the probe, append its outcome and bump the counter. -/
def runMethods (ep : Endpoint) (tc : TestConfig) (svcName rtName path : String)
    (hasAuth : Bool) : List String → LoopSt → LoopSt
  | [], st => st
  | m :: ms, st =>
    if st.halted then st
    else if tc.maxRequests > 0 && (st.count : Int) ≥ tc.maxRequests then
      { st with halted := true }
    else
      runMethods ep tc svcName rtName path hasAuth ms
        { results := st.results ++ [ep svcName rtName path m hasAuth],
          count := st.count + 1, halted := false }

/-- The loop over a route's declared paths (main.go lines 162-180): a
path containing the named-capture opener is run through
`expandRegexPath`, any other path is probed verbatim. -/
def runPaths (ep : Endpoint) (tc : TestConfig) (svcName rtName : String)
    (hasAuth : Bool) (methods : List String) : List String → LoopSt → LoopSt
  | [], st => st
  | p :: ps, st =>
    if st.halted then st
    else
      let concrete := if strContains p "(?<" then expandRegexPath p else p
      runPaths ep tc svcName rtName hasAuth methods ps
        (runMethods ep tc svcName rtName concrete hasAuth methods st)

/-- The loop over a service's routes (main.go lines 143-181): classify
auth, apply the test-auth/test-unauth toggles, default the method set
when none is declared, then walk the paths. -/
def runRoutes (ep : Endpoint) (tc : TestConfig) (svc : Service) :
    List Route → LoopSt → LoopSt
  | [], st => st
  | r :: rs, st =>
    if st.halted then st
    else
      let hasAuth := hasAuthPlugin r svc
      if hasAuth && !tc.testAuth then runRoutes ep tc svc rs st
      else if !hasAuth && !tc.testUnauth then runRoutes ep tc svc rs st
      else
        let methods := if r.methods.isEmpty then
          ["GET", "POST", "PUT", "DELETE", "PATCH"] else r.methods
        runRoutes ep tc svc rs
          (runPaths ep tc svc.name r.name hasAuth methods r.paths st)

/-- The loop over services (main.go lines 131-182). -/
def runServices (ep : Endpoint) (tc : TestConfig) :
    List Service → LoopSt → LoopSt
  | [], st => st
  | s :: ss, st =>
    if st.halted then st
    else if skipService s then runServices ep tc ss st
    else runServices ep tc ss (runRoutes ep tc s s.routes st)

/-- Model of `testRoutes`: run the nested loops from an empty result list
and a zero request counter, and return the accumulated outcomes. -/
def testRoutes (ep : Endpoint) (tc : TestConfig) (config : KongConfig) :
    List TestResult :=
  (runServices ep tc config.services { results := [], count := 0, halted := false }).results

/-! ### Result aggregator (main.go `printSummary`, lines 353-400)

The per-service and per-status-code tally maps are pure output formatting
referenced by no claim and are not modelled; the three classification
counters and the anomaly list are. -/

/-- The classification bucket an outcome falls into, read off the
if/else-if chain of main.go lines 369-375. -/
inductive Bucket where
  | success
  | authFailed
  | otherError
  | uncounted
deriving DecidableEq, Repr

/-- The classification chain applied to one outcome: a status in
[200,400) is a success; else status 401 is an auth failure; else a status
at least 400 or a transport error is an other-error; anything else falls
through uncounted. -/
def classify (r : TestResult) : Bucket :=
  if 200 ≤ r.statusCode ∧ r.statusCode < 400 then .success
  else if r.statusCode = 401 then .authFailed
  else if 400 ≤ r.statusCode ∨ r.error = true then .otherError
  else .uncounted

/-- The summary counters computed by `printSummary`. -/
structure Summary where
  total : Nat
  successful : Nat
  authFailed : Nat
  otherErrors : Nat
deriving DecidableEq, Repr

/-- One step of the counting loop of `printSummary`. -/
def tally (s : Summary) (r : TestResult) : Summary :=
  match classify r with
  | .success => { s with successful := s.successful + 1 }
  | .authFailed => { s with authFailed := s.authFailed + 1 }
  | .otherError => { s with otherErrors := s.otherErrors + 1 }
  | .uncounted => s

/-- The summary over a whole outcome sequence (main.go lines 358-376). -/
def summarize (results : List TestResult) : Summary :=
  results.foldl tally
    { total := results.length, successful := 0, authFailed := 0, otherErrors := 0 }

/-- The anomaly list printed at main.go lines 394-399: the outcomes with
status 401 whose probe did not require auth. -/
def problematicRoutes (results : List TestResult) : List TestResult :=
  results.filter (fun r => r.statusCode == 401 && !r.requiresAuth)

/-! ### Request construction in `testEndpoint` (main.go lines 246-262)

For POST, PUT and PATCH the code calls `http.NewRequest` and immediately
sets the Content-Type header on the returned request before checking the
construction error; when construction fails the request is nil and the
header write dereferences it.  For the remaining methods the error is
checked first.  The model takes whether `http.NewRequest` fails as a
boolean input and reports which of the three continuations runs. -/

/-- What the request-construction block does. -/
inductive RequestBuild where
  /-- `req.Header.Set` executed on a nil request: a nil-pointer panic. -/
  | nilDeref
  /-- The `err != nil` branch: the error is recorded on the outcome and
  the probe returns. -/
  | errorOutcome
  /-- A request was built; the flag records whether it carries the JSON
  body and content-type header. -/
  | request (hasBody : Bool)
deriving DecidableEq, Repr

/-- The construction block of `testEndpoint`, with `newRequestFails`
standing for `http.NewRequest` returning a nil request and an error. -/
def buildRequest (newRequestFails : Bool) (method : String) : RequestBuild :=
  if method == "POST" || method == "PUT" || method == "PATCH" then
    if newRequestFails then .nilDeref
    else .request true
  else if newRequestFails then .errorOutcome
  else .request false

/-! ### Concrete fixtures used by witnesses and counterexamples -/

/-- A route with no declared methods and one literal path. -/
def sampleRoute : Route :=
  { name := "r1", paths := ["/a"], methods := [], hosts := [], plugins := [],
    priority := 0 }

/-- A service that is not skipped by `skipService`. -/
def sampleService : Service :=
  { name := "payments", url := "http://upstream", plugins := [],
    routes := [sampleRoute] }

/-- A one-service configuration. -/
def sampleConfig : KongConfig := { services := [sampleService] }

/-- Both route classes enabled, no request budget. -/
def tcUnlimited : TestConfig :=
  { testAuth := true, testUnauth := true, maxRequests := 0 }

/-- Both route classes enabled, budget of one request. -/
def tcBudgetOne : TestConfig :=
  { testAuth := true, testUnauth := true, maxRequests := 1 }

/-- The outcome `recordProbe` produces for the first probe of
`sampleConfig`. -/
def sampleProbe : TestResult :=
  { service := "payments", route := "r1", path := "/a", method := "GET",
    requiresAuth := false, statusCode := 0, error := false, message := "" }

/-- An outcome with an informational status and no transport error: it
falls through every branch of the classification chain. -/
def outcome100 : TestResult :=
  { service := "svc", route := "r", path := "/p", method := "GET",
    requiresAuth := false, statusCode := 100, error := false, message := "" }

/-- An outcome with a server-error status. -/
def outcome500 : TestResult :=
  { service := "svc", route := "r", path := "/p", method := "GET",
    requiresAuth := false, statusCode := 500, error := false, message := "" }

/-- A successful outcome. -/
def outcome204 : TestResult :=
  { service := "svc", route := "r", path := "/p", method := "GET",
    requiresAuth := false, statusCode := 204, error := false, message := "" }

/-- A path template whose materialization depends on the iteration order
of the replacement table (it is the named-capture input of the
repository's own `TestExpandRegexPath` unit test). -/
def testIdPath : String := "/tests/(?<test_id>[0-9a-fA-F-]+)"

/-- The replacement table in an iteration order that places the bare
hex-class entry first; Go map iteration can produce this order. -/
def hexFirstOrder : List (String × String) :=
  [("[0-9a-fA-F-]+", "abc123def456"),
   ("(?<client_id>[0-9a-fA-F-]+)", "3a45625e-fd29-47a5-8294-e30fe2d3d391"),
   ("(?<seat_id>[0-9a-fA-F-]+)", "123e4567-e89b-12d3-a456-426614174000"),
   ("(?<invite_token>[0-9a-fA-F-]+)", "987fcdeb-51a2-43e1-b210-0123456789ab"),
   ("(?<test_id>[0-9a-fA-F-]+)", "test-id-123"),
   ("(?<user_id>[^/]+)", "user123"),
   ("(?<embed_id>[0-9a-fA-F-]+)", "embed-456"),
   ("[a-zA-Z0-9_-]+", "test-value"),
   ("[^/]+", "example"),
   ("(.*)", "path")]

/-! ### Helper lemmas -/

/-- `takeWhile` keeps a list all of whose elements satisfy the predicate. -/
lemma takeWhile_of_all {α : Type} (p : α → Bool) :
    ∀ l : List α, (∀ c ∈ l, p c = true) → l.takeWhile p = l := by
  intro l
  induction l with
  | nil => intro _; rfl
  | cons c t ih =>
    intro h
    simp [List.takeWhile_cons, h c (by simp), ih (fun x hx => h x (by simp [hx]))]

/-- `takeWhile` stops exactly at the first failing element. -/
lemma takeWhile_glue {α : Type} (p : α → Bool) (y : α) (ys : List α) (hy : p y = false) :
    ∀ xs : List α, (∀ c ∈ xs, p c = true) → (xs ++ y :: ys).takeWhile p = xs := by
  intro xs
  induction xs with
  | nil => intro _; simp [List.takeWhile_cons, hy]
  | cons c t ih =>
    intro h
    simp [List.cons_append, List.takeWhile_cons, h c (by simp),
      ih (fun x hx => h x (by simp [hx]))]

/-- Dropping a prefix and one more element. -/
lemma drop_glue {α : Type} (xs : List α) (y : α) (ys : List α) :
    (xs ++ y :: ys).drop (xs.length + 1) = ys := by
  have h : xs ++ y :: ys = (xs ++ [y]) ++ ys := by simp
  have h2 : xs.length + 1 = (xs ++ [y]).length := by simp
  rw [h, h2, List.drop_left]

/-! ### Claim C6: auth classification -/

/-- Claim C6: `hasAuthPlugin route service` returns true if and only if a
plugin named `auth` appears in the route's plugin list or in the
service's plugin list; with no such plugin in either list it returns
false. -/
theorem hasAuthPlugin_iff (route : Route) (service : Service) :
    hasAuthPlugin route service = true ↔
      (∃ p, p ∈ route.plugins ∧ p.name = "auth") ∨
        (∃ p, p ∈ service.plugins ∧ p.name = "auth") := by
  simp [hasAuthPlugin, List.any_eq_true]

/-! ### Claim C8: the anomaly list -/

/-- Claim C8: an outcome appears in the anomaly list exactly when it is
one of the recorded outcomes, its status is 401, and its probe's
auth-required flag is false; in particular no outcome with the flag set
ever appears, and every 401-status outcome with the flag unset does. -/
theorem problematicRoutes_iff (results : List TestResult) (r : TestResult) :
    r ∈ problematicRoutes results ↔
      r ∈ results ∧ r.statusCode = 401 ∧ r.requiresAuth = false := by
  simp [problematicRoutes, List.mem_filter, and_assoc]

/-! ### Claim C10: nil dereference on request-construction failure -/

/-- Claim C10: when `http.NewRequest` fails, a probe with method POST,
PUT or PATCH dereferences the nil request while setting the Content-Type
header before the error is checked, and the branch that records the
construction error on the outcome is reachable only for the body-less
methods. -/
theorem buildRequest_nilDeref_on_body_methods :
    (∀ m : String, m = "POST" ∨ m = "PUT" ∨ m = "PATCH" →
      buildRequest true m = RequestBuild.nilDeref) ∧
    (∀ m : String, buildRequest true m = RequestBuild.errorOutcome →
      ¬(m = "POST" ∨ m = "PUT" ∨ m = "PATCH")) := by
  constructor
  · intro m hm
    rcases hm with h | h | h <;> subst h <;> rfl
  · intro m hm
    intro hbody
    rcases hbody with h | h | h <;> subst h <;> simp [buildRequest] at hm

/-- Witness for C10 at the concrete method POST. -/
theorem buildRequest_nilDeref_witness :
    buildRequest true "POST" = RequestBuild.nilDeref :=
  buildRequest_nilDeref_on_body_methods.1 "POST" (Or.inl rfl)

/-! ### Claim C2: the classification rule -/

/-- Claim C2: for an outcome (whose status is 0 whenever a transport
error is recorded, as the executor guarantees), the summary's
classification chain counts a status in [200,400) as a success, status
401 as an auth failure, any other status at least 400 or any transport
error as an other-error, and a zero status without error in no bucket. -/
theorem classify_spec (r : TestResult) (herr : r.error = true → r.statusCode = 0) :
    (200 ≤ r.statusCode ∧ r.statusCode < 400 → classify r = Bucket.success) ∧
    (r.statusCode = 401 → classify r = Bucket.authFailed) ∧
    ((400 ≤ r.statusCode ∧ r.statusCode ≠ 401) ∨ r.error = true →
      classify r = Bucket.otherError) ∧
    (r.statusCode = 0 ∧ r.error = false → classify r = Bucket.uncounted) := by
  refine ⟨fun h => ?_, fun h => ?_, fun h => ?_, fun h => ?_⟩
  · simp [classify, h]
  · have : ¬(200 ≤ r.statusCode ∧ r.statusCode < 400) := by omega
    simp [classify, this, h]
  · rcases h with ⟨h4, hne⟩ | he
    · have h1 : ¬(200 ≤ r.statusCode ∧ r.statusCode < 400) := by omega
      simp [classify, h1, hne, h4]
    · have h0 := herr he
      have h1 : ¬(200 ≤ r.statusCode ∧ r.statusCode < 400) := by omega
      have h2 : r.statusCode ≠ 401 := by omega
      simp [classify, h1, h2, he]
  · rcases h with ⟨h0, he⟩
    have h1 : ¬(200 ≤ r.statusCode ∧ r.statusCode < 400) := by omega
    have h2 : r.statusCode ≠ 401 := by omega
    have h3 : ¬(400 ≤ r.statusCode ∨ r.error = true) := by
      simp [he]; omega
    simp [classify, h1, h2, h3]

/-- Witness for C2: a 500-status outcome is classified as an other
error. -/
theorem classify_spec_witness : classify outcome500 = Bucket.otherError :=
  (classify_spec outcome500 (by decide)).2.2.1 (Or.inl (by decide))

/-! ### Claim C3: the summary counting invariant -/

/-- One tally step adds one to the bucket sum except for a pass-through
outcome. -/
lemma tally_sum (s : Summary) (r : TestResult) :
    (tally s r).successful + (tally s r).authFailed + (tally s r).otherErrors =
      s.successful + s.authFailed + s.otherErrors +
        (if classify r = Bucket.uncounted then 0 else 1) := by
  unfold tally
  rcases h : classify r <;> simp [h] <;> omega

/-- The bucket sum over a fold of tally steps. -/
lemma foldl_tally_sum : ∀ (rs : List TestResult) (s : Summary),
    ((rs.foldl tally s).successful + (rs.foldl tally s).authFailed +
        (rs.foldl tally s).otherErrors ≤
      s.successful + s.authFailed + s.otherErrors + rs.length) ∧
    ((∀ r ∈ rs, classify r ≠ Bucket.uncounted) →
      (rs.foldl tally s).successful + (rs.foldl tally s).authFailed +
          (rs.foldl tally s).otherErrors =
        s.successful + s.authFailed + s.otherErrors + rs.length) := by
  intro rs
  induction rs with
  | nil => intro s; simp
  | cons r t ih =>
    intro s
    constructor
    · have h1 := (ih (tally s r)).1
      have h2 := tally_sum s r
      simp only [List.foldl_cons, List.length_cons]
      split at h2 <;> omega
    · intro hall
      have h1 := (ih (tally s r)).2 (fun x hx => hall x (by simp [hx]))
      have h2 := tally_sum s r
      have hr : ¬ classify r = Bucket.uncounted := hall r (by simp)
      simp only [List.foldl_cons, List.length_cons]
      rw [if_neg hr] at h2
      omega

/-- The pass-through bucket of the classification chain is exactly a
status below 200 with no transport error. -/
lemma classify_uncounted_iff (r : TestResult) :
    classify r = Bucket.uncounted ↔ r.statusCode < 200 ∧ r.error = false := by
  unfold classify
  split_ifs with h1 h2 h3
  · have : ¬ r.statusCode < 200 := by omega
    simp [this]
  · have : ¬ r.statusCode < 200 := by omega
    simp [this]
  · rcases h3 with h | h
    · have : ¬ r.statusCode < 200 := by omega
      simp [this]
    · simp [h]
  · push_neg at h3
    have hs : r.statusCode < 200 := by
      rcases Nat.lt_or_ge r.statusCode 200 with h | h
      · exact h
      · exact absurd ⟨h, h3.1⟩ h1
    simp only [true_iff]
    exact ⟨hs, by simpa using h3.2⟩

/-- Counterexample for C3 as stated: the singleton sequence holding a
status-100, no-error outcome has no status-0/no-error member, yet the
bucket sum is 0 while the sequence length is 1. -/
theorem summarize_eq_fails_at_status100 :
    (summarize [outcome100]).successful + (summarize [outcome100]).authFailed +
        (summarize [outcome100]).otherErrors ≠ [outcome100].length ∧
      ¬(outcome100.statusCode = 0 ∧ outcome100.error = false) := by
  decide

/-- Claim C3 as amended: the three counters sum to at most the number of
outcomes, with equality whenever no outcome has a status below 200
without a transport error (the chain's pass-through bucket is status in
[0,200) with no error, not only status 0). -/
theorem summarize_counts_bound (results : List TestResult) :
    ((summarize results).successful + (summarize results).authFailed +
        (summarize results).otherErrors ≤ results.length) ∧
    ((∀ r ∈ results, r.statusCode < 200 → r.error = true) →
      (summarize results).successful + (summarize results).authFailed +
          (summarize results).otherErrors = results.length) := by
  constructor
  · have h := (foldl_tally_sum results
      { total := results.length, successful := 0, authFailed := 0, otherErrors := 0 }).1
    simpa [summarize] using h
  · intro hall
    have hcl : ∀ r ∈ results, classify r ≠ Bucket.uncounted := by
      intro r hr hu
      rcases (classify_uncounted_iff r).mp hu with ⟨hlt, herr⟩
      have := hall r hr hlt
      rw [this] at herr
      exact absurd herr (by simp)
    have h := (foldl_tally_sum results
      { total := results.length, successful := 0, authFailed := 0, otherErrors := 0 }).2 hcl
    simpa [summarize] using h

/-- Witness for the amended C3 at a concrete successful outcome. -/
theorem summarize_counts_bound_witness :
    (summarize [outcome204]).successful + (summarize [outcome204]).authFailed +
        (summarize [outcome204]).otherErrors = [outcome204].length :=
  (summarize_counts_bound [outcome204]).2 (by decide)

/-! ### Claim C1: the global request budget -/

/-- Through the method loop, the counter tracks the number of recorded
outcomes and never passes a positive budget. -/
lemma runMethods_budget (ep : Endpoint) (tc : TestConfig) (s r p : String)
    (a : Bool) (hpos : 0 < tc.maxRequests) :
    ∀ (ms : List String) (st : LoopSt),
      st.count = st.results.length → (st.count : Int) ≤ tc.maxRequests →
      ((runMethods ep tc s r p a ms st).count =
          (runMethods ep tc s r p a ms st).results.length ∧
        ((runMethods ep tc s r p a ms st).count : Int) ≤ tc.maxRequests) := by
  intro ms
  induction ms with
  | nil => intro st h1 h2; exact ⟨h1, h2⟩
  | cons m t ih =>
    intro st h1 h2
    simp only [runMethods]
    split
    · exact ⟨h1, h2⟩
    · split
      · exact ⟨h1, h2⟩
      · rename_i hcond
        simp only [Bool.and_eq_true, decide_eq_true_eq] at hcond
        push_neg at hcond
        have hlt : (st.count : Int) < tc.maxRequests := by
          have := hcond hpos
          omega
        apply ih
        · simp [h1]
        · push_cast
          omega

/-- The budget invariant through the path loop. -/
lemma runPaths_budget (ep : Endpoint) (tc : TestConfig) (s r : String)
    (a : Bool) (methods : List String) (hpos : 0 < tc.maxRequests) :
    ∀ (ps : List String) (st : LoopSt),
      st.count = st.results.length → (st.count : Int) ≤ tc.maxRequests →
      ((runPaths ep tc s r a methods ps st).count =
          (runPaths ep tc s r a methods ps st).results.length ∧
        ((runPaths ep tc s r a methods ps st).count : Int) ≤ tc.maxRequests) := by
  intro ps
  induction ps with
  | nil => intro st h1 h2; exact ⟨h1, h2⟩
  | cons q t ih =>
    intro st h1 h2
    simp only [runPaths]
    split
    · exact ⟨h1, h2⟩
    · have h := runMethods_budget ep tc s r
        (if strContains q "(?<" = true then expandRegexPath q else q) a hpos
        methods st h1 h2
      exact ih _ h.1 h.2

/-- The budget invariant through the route loop. -/
lemma runRoutes_budget (ep : Endpoint) (tc : TestConfig) (svc : Service)
    (hpos : 0 < tc.maxRequests) :
    ∀ (rts : List Route) (st : LoopSt),
      st.count = st.results.length → (st.count : Int) ≤ tc.maxRequests →
      ((runRoutes ep tc svc rts st).count =
          (runRoutes ep tc svc rts st).results.length ∧
        ((runRoutes ep tc svc rts st).count : Int) ≤ tc.maxRequests) := by
  intro rts
  induction rts with
  | nil => intro st h1 h2; exact ⟨h1, h2⟩
  | cons r t ih =>
    intro st h1 h2
    simp only [runRoutes]
    split
    · exact ⟨h1, h2⟩
    · split
      · exact ih st h1 h2
      · split
        · exact ih st h1 h2
        · have h := runPaths_budget ep tc svc.name r.name (hasAuthPlugin r svc)
            (if r.methods.isEmpty = true then ["GET", "POST", "PUT", "DELETE", "PATCH"]
              else r.methods) hpos r.paths st h1 h2
          exact ih _ h.1 h.2

/-- The budget invariant through the service loop. -/
lemma runServices_budget (ep : Endpoint) (tc : TestConfig)
    (hpos : 0 < tc.maxRequests) :
    ∀ (svcs : List Service) (st : LoopSt),
      st.count = st.results.length → (st.count : Int) ≤ tc.maxRequests →
      ((runServices ep tc svcs st).count =
          (runServices ep tc svcs st).results.length ∧
        ((runServices ep tc svcs st).count : Int) ≤ tc.maxRequests) := by
  intro svcs
  induction svcs with
  | nil => intro st h1 h2; exact ⟨h1, h2⟩
  | cons s t ih =>
    intro st h1 h2
    simp only [runServices]
    split
    · exact ⟨h1, h2⟩
    · split
      · exact ih st h1 h2
      · have h := runRoutes_budget ep tc s hpos s.routes st h1 h2
        exact ih _ h.1 h.2

/-- Claim C1: with a positive configured budget, the number of outcomes
`testRoutes` returns (one per probe executed) never exceeds the budget:
the loop stops before the probe that would exceed it and returns the
outcomes produced so far. -/
theorem testRoutes_respects_budget (ep : Endpoint) (tc : TestConfig)
    (config : KongConfig) (hpos : 0 < tc.maxRequests) :
    ((testRoutes ep tc config).length : Int) ≤ tc.maxRequests := by
  have h0 : ((({ results := [], count := 0, halted := false } : LoopSt)).count : Int) ≤
      tc.maxRequests := by
    show ((0 : Nat) : Int) ≤ tc.maxRequests
    omega
  have h := runServices_budget ep tc hpos config.services
    { results := [], count := 0, halted := false } rfl h0
  unfold testRoutes
  rw [← h.1]
  exact h.2

/-- Witness for C1: a configuration deriving five probes, a budget of
one, and at most one outcome returned. -/
theorem testRoutes_respects_budget_witness :
    ((testRoutes recordProbe tcBudgetOne sampleConfig).length : Int) ≤
      tcBudgetOne.maxRequests :=
  testRoutes_respects_budget recordProbe tcBudgetOne sampleConfig (by decide)

/-! ### Claim C7: every probe uses a materialized-or-verbatim declared path -/

/-- Every outcome the method loop adds carries the concrete path it was
given. -/
lemma runMethods_mem (ep : Endpoint) (tc : TestConfig) (s r p : String)
    (a : Bool) (hep : ∀ s r p m a, (ep s r p m a).path = p) :
    ∀ (ms : List String) (st : LoopSt) (res : TestResult),
      res ∈ (runMethods ep tc s r p a ms st).results →
      res ∈ st.results ∨ res.path = p := by
  intro ms
  induction ms with
  | nil => intro st res h; exact Or.inl h
  | cons m t ih =>
    intro st res h
    simp only [runMethods] at h
    split at h
    · exact Or.inl h
    · split at h
      · exact Or.inl h
      · rcases ih _ res h with h2 | h2
        · rcases List.mem_append.mp h2 with h3 | h3
          · exact Or.inl h3
          · right
            rw [List.mem_singleton.mp h3]
            exact hep s r p m a
        · exact Or.inr h2

/-- Every outcome the path loop adds uses a declared path, materialized
when it contains the capture opener and verbatim otherwise. -/
lemma runPaths_mem (ep : Endpoint) (tc : TestConfig) (s r : String)
    (a : Bool) (methods : List String)
    (hep : ∀ s r p m a, (ep s r p m a).path = p) :
    ∀ (ps : List String) (st : LoopSt) (res : TestResult),
      res ∈ (runPaths ep tc s r a methods ps st).results →
      res ∈ st.results ∨ ∃ q, q ∈ ps ∧
        res.path = if strContains q "(?<" = true then expandRegexPath q else q := by
  intro ps
  induction ps with
  | nil => intro st res h; exact Or.inl h
  | cons q t ih =>
    intro st res h
    simp only [runPaths] at h
    split at h
    · exact Or.inl h
    · rcases ih _ res h with h2 | ⟨q2, hq2, hpath⟩
      · rcases runMethods_mem ep tc s r _ a hep methods st res h2 with h3 | h3
        · exact Or.inl h3
        · exact Or.inr ⟨q, by simp, h3⟩
      · exact Or.inr ⟨q2, by simp [hq2], hpath⟩

/-- Every outcome the route loop adds uses a declared path of one of the
routes. -/
lemma runRoutes_mem (ep : Endpoint) (tc : TestConfig) (svc : Service)
    (hep : ∀ s r p m a, (ep s r p m a).path = p) :
    ∀ (rts : List Route) (st : LoopSt) (res : TestResult),
      res ∈ (runRoutes ep tc svc rts st).results →
      res ∈ st.results ∨ ∃ rt, rt ∈ rts ∧ ∃ q, q ∈ rt.paths ∧
        res.path = if strContains q "(?<" = true then expandRegexPath q else q := by
  intro rts
  induction rts with
  | nil => intro st res h; exact Or.inl h
  | cons r t ih =>
    intro st res h
    simp only [runRoutes] at h
    split at h
    · exact Or.inl h
    · split at h
      · rcases ih st res h with h2 | ⟨rt, hrt, hq⟩
        · exact Or.inl h2
        · exact Or.inr ⟨rt, by simp [hrt], hq⟩
      · split at h
        · rcases ih st res h with h2 | ⟨rt, hrt, hq⟩
          · exact Or.inl h2
          · exact Or.inr ⟨rt, by simp [hrt], hq⟩
        · rcases ih _ res h with h2 | ⟨rt, hrt, hq⟩
          · rcases runPaths_mem ep tc svc.name r.name (hasAuthPlugin r svc) _ hep
              r.paths st res h2 with h3 | ⟨q, hq, hpath⟩
            · exact Or.inl h3
            · exact Or.inr ⟨r, by simp, q, hq, hpath⟩
          · exact Or.inr ⟨rt, by simp [hrt], hq⟩

/-- Every outcome the service loop adds uses a declared path of a route
of one of the services. -/
lemma runServices_mem (ep : Endpoint) (tc : TestConfig)
    (hep : ∀ s r p m a, (ep s r p m a).path = p) :
    ∀ (svcs : List Service) (st : LoopSt) (res : TestResult),
      res ∈ (runServices ep tc svcs st).results →
      res ∈ st.results ∨ ∃ svc, svc ∈ svcs ∧ ∃ rt, rt ∈ svc.routes ∧
        ∃ q, q ∈ rt.paths ∧
          res.path = if strContains q "(?<" = true then expandRegexPath q else q := by
  intro svcs
  induction svcs with
  | nil => intro st res h; exact Or.inl h
  | cons s t ih =>
    intro st res h
    simp only [runServices] at h
    split at h
    · exact Or.inl h
    · split at h
      · rcases ih st res h with h2 | ⟨svc, hsvc, hq⟩
        · exact Or.inl h2
        · exact Or.inr ⟨svc, by simp [hsvc], hq⟩
      · rcases ih _ res h with h2 | ⟨svc, hsvc, hq⟩
        · rcases runRoutes_mem ep tc s hep s.routes st res h2 with h3 | ⟨rt, hrt, hq⟩
          · exact Or.inl h3
          · exact Or.inr ⟨s, by simp, rt, hrt, hq⟩
        · exact Or.inr ⟨svc, by simp [hsvc], hq⟩

/-- Claim C7: every outcome of a run (whose endpoint records the path it
is handed, as `testEndpoint` does) was probed at a declared path of some
route, run through `expandRegexPath` when it contains the capture opener
and used verbatim otherwise. -/
theorem testRoutes_paths_materialized (ep : Endpoint) (tc : TestConfig)
    (config : KongConfig) (hep : ∀ s r p m a, (ep s r p m a).path = p)
    (res : TestResult) (hres : res ∈ testRoutes ep tc config) :
    ∃ svc, svc ∈ config.services ∧ ∃ rt, rt ∈ svc.routes ∧
      ∃ q, q ∈ rt.paths ∧
        res.path = if strContains q "(?<" = true then expandRegexPath q else q := by
  rcases runServices_mem ep tc hep config.services
    { results := [], count := 0, halted := false } res hres with h | h
  · exact absurd h (List.not_mem_nil res)
  · exact h

/-- Witness for C7 at a concrete outcome of a concrete run. -/
theorem testRoutes_paths_materialized_witness :
    ∃ svc, svc ∈ sampleConfig.services ∧ ∃ rt, rt ∈ svc.routes ∧
      ∃ q, q ∈ rt.paths ∧
        sampleProbe.path = if strContains q "(?<" = true then expandRegexPath q else q :=
  testRoutes_paths_materialized recordProbe tcUnlimited sampleConfig
    (fun _ _ _ _ _ => rfl) sampleProbe (by decide)

/-! ### Claim C9: method defaulting -/

/-- With a non-positive budget the method loop records one outcome per
method, in order. -/
lemma runMethods_no_budget (ep : Endpoint) (tc : TestConfig) (s r p : String)
    (a : Bool) (hmax : tc.maxRequests ≤ 0) :
    ∀ (ms : List String) (st : LoopSt), st.halted = false →
      runMethods ep tc s r p a ms st =
        { results := st.results ++ ms.map (fun m => ep s r p m a),
          count := st.count + ms.length, halted := false } := by
  intro ms
  induction ms with
  | nil =>
    intro st h
    cases st
    simp_all [runMethods]
  | cons m t ih =>
    intro st h
    have hng : ¬ tc.maxRequests > 0 := by omega
    simp only [runMethods, h, if_false, Bool.false_eq_true]
    rw [if_neg (by simp [hng])]
    rw [ih _ rfl]
    simp [LoopSt.mk.injEq, List.append_assoc]
    omega

/-- Projecting the method back out of the recorded outcomes. -/
lemma map_method (ep : Endpoint) (hep : ∀ s r q m a, (ep s r q m a).method = m)
    (s r q : String) (a : Bool) :
    ∀ ms : List String,
      (ms.map (fun m => ep s r q m a)).map (fun x => x.method) = ms := by
  intro ms
  induction ms with
  | nil => rfl
  | cons m t ih => simp [ih, hep]

/-- Claim C9: for a route probed on one declared path (with an endpoint
that records the method it is handed, as `testEndpoint` does), the
methods probed are exactly GET, POST, PUT, DELETE, PATCH in that order
when the route declares no methods, and exactly the declared sequence
otherwise. -/
theorem testRoutes_default_methods (ep : Endpoint) (tc : TestConfig)
    (sname surl : String) (spl : List Plugin) (rt : Route) (p : String)
    (hep : ∀ s r q m a, (ep s r q m a).method = m)
    (hskip : skipService { name := sname, url := surl, plugins := spl, routes := [rt] } = false)
    (hta : tc.testAuth = true) (htu : tc.testUnauth = true)
    (hmax : tc.maxRequests ≤ 0) (hpaths : rt.paths = [p]) :
    (testRoutes ep tc
        { services := [{ name := sname, url := surl, plugins := spl, routes := [rt] }] }).map
        (fun r => r.method) =
      if rt.methods = [] then ["GET", "POST", "PUT", "DELETE", "PATCH"]
      else rt.methods := by
  simp only [testRoutes, runServices, runRoutes, runPaths, hskip, hta, htu, hpaths,
    Bool.not_true, Bool.and_false, Bool.false_eq_true, if_false]
  rw [runMethods_no_budget ep tc _ _ _ _ hmax _ _ rfl]
  simp only [List.nil_append]
  rw [map_method ep hep]
  cases hm : rt.methods <;> simp [hm]

/-- Witness for C9 at a concrete route with no declared methods. -/
theorem testRoutes_default_methods_witness :
    (testRoutes recordProbe tcUnlimited sampleConfig).map (fun r => r.method) =
      if sampleRoute.methods = [] then ["GET", "POST", "PUT", "DELETE", "PATCH"]
      else sampleRoute.methods :=
  testRoutes_default_methods recordProbe tcUnlimited "payments" "http://upstream"
    [] sampleRoute "/a" (fun _ _ _ _ _ => rfl) (by decide) rfl rfl (by decide) rfl

/-! ### Claim C4: placeholder resolution -/

/-- Recognising a bare placeholder interior followed by the closing
brace. -/
lemma parsePlaceholder_simple (name rest : List Char) (hname : name ≠ [])
    (hnc : ∀ c ∈ name, c ≠ ':' ∧ c ≠ rbrace) :
    parsePlaceholder (name ++ rbrace :: rest) = some (name, name.length + 1) := by
  have hp : ∀ c ∈ name, (fun c => !(c == ':') && !(c == rbrace)) c = true := by
    intro c hc
    rcases hnc c hc with ⟨h1, h2⟩
    simp [h1, h2]
  have hf : (fun c => !(c == ':') && !(c == rbrace)) rbrace = false := by simp
  have htw := takeWhile_glue _ rbrace rest hf name hp
  have hlen : (name.length == 0) = false := by
    simp [List.length_eq_zero, hname]
  simp only [parsePlaceholder, htw, hlen, List.drop_left]
  simp

/-- Recognising a placeholder interior with an op and default segment
followed by the closing brace. -/
lemma parsePlaceholder_dflt (name dflt rest : List Char) (op : Char)
    (hname : name ≠ []) (hnc : ∀ c ∈ name, c ≠ ':' ∧ c ≠ rbrace)
    (hop : op = '?' ∨ op = '=') (hd : ∀ c ∈ dflt, c ≠ rbrace) :
    parsePlaceholder (name ++ ':' :: op :: (dflt ++ rbrace :: rest)) =
      some (name ++ ':' :: op :: dflt, name.length + 2 + dflt.length + 1) := by
  have hp : ∀ c ∈ name, (fun c => !(c == ':') && !(c == rbrace)) c = true := by
    intro c hc
    rcases hnc c hc with ⟨h1, h2⟩
    simp [h1, h2]
  have hf : (fun c => !(c == ':') && !(c == rbrace)) ':' = false := by simp
  have htw := takeWhile_glue _ ':' (op :: (dflt ++ rbrace :: rest)) hf name hp
  have hlen : (name.length == 0) = false := by
    simp [List.length_eq_zero, hname]
  have hdp : ∀ c ∈ dflt, (fun ch => !(ch == rbrace)) c = true := by
    intro c hc
    simp [hd c hc]
  have hdf : (fun ch => !(ch == rbrace)) rbrace = false := by simp
  have hdtw := takeWhile_glue _ rbrace rest hdf dflt hdp
  have hopb : (op == '?' || op == '=') = true := by
    rcases hop with h | h <;> simp [h]
  have hcr : (':' == rbrace) = false := by decide
  simp only [parsePlaceholder, htw, hlen, List.drop_left, hcr, hdtw, hopb]
  simp

/-- Unfolding `handleTemplating` past a non-dollar character. -/
lemma handleTemplating_cons_ne (env : List Char → List Char) (c : Char)
    (l : List Char) (h : (c == '$') = false) :
    handleTemplating env (c :: l) = c :: handleTemplating env l := by
  cases l with
  | nil => simp [handleTemplating, h]
  | cons c2 t => simp [handleTemplating, h]

/-- Unfolding `handleTemplating` at a recognised placeholder. -/
lemma handleTemplating_step (env : List Char → List Char) (rest2 inner : List Char)
    (n : Nat) (h : parsePlaceholder rest2 = some (inner, n)) :
    handleTemplating env ('$' :: lbrace :: rest2) =
      resolveName env (inner.takeWhile (fun ch => !(ch == ':'))) ++
        handleTemplating env (rest2.drop n) := by
  rw [handleTemplating]
  simp [h]

/-- `handleTemplating` copies a dollar-free prefix verbatim. -/
lemma handleTemplating_pre (env : List Char → List Char) :
    ∀ (pre : List Char), (∀ c ∈ pre, c ≠ '$') →
      ∀ l, handleTemplating env (pre ++ l) = pre ++ handleTemplating env l := by
  intro pre
  induction pre with
  | nil => intro _ l; simp
  | cons c t ih =>
    intro h l
    have hc : (c == '$') = false := by simp [h c (by simp)]
    rw [List.cons_append, handleTemplating_cons_ne env c _ hc,
      ih (fun x hx => h x (by simp [hx])) l]
    simp

/-- Claim C4: a well-formed placeholder, bare or carrying an op and a
default, resolves to the environment value when set and non-empty, else
to the fixed service-address fallback when the name contains
SERVICE_ADDRESS, else to the fixed generic placeholder; the default text
is never consulted (the resolved output does not mention it). -/
theorem handleTemplating_placeholder (env : List Char → List Char)
    (pre name dflt rest : List Char) (op : Char)
    (hpre : ∀ c ∈ pre, c ≠ '$') (hname : name ≠ [])
    (hnc : ∀ c ∈ name, c ≠ ':' ∧ c ≠ rbrace)
    (hop : op = '?' ∨ op = '=') (hd : ∀ c ∈ dflt, c ≠ rbrace) :
    (handleTemplating env (pre ++ '$' :: lbrace :: (name ++ rbrace :: rest)) =
        pre ++ resolveName env name ++ handleTemplating env rest) ∧
    (handleTemplating env
        (pre ++ '$' :: lbrace :: (name ++ ':' :: op :: (dflt ++ rbrace :: rest))) =
        pre ++ resolveName env name ++ handleTemplating env rest) ∧
    (env name ≠ [] → resolveName env name = env name) ∧
    (env name = [] → hasSubL name "SERVICE_ADDRESS".data = true →
      resolveName env name = svcFallback) ∧
    (env name = [] → hasSubL name "SERVICE_ADDRESS".data = false →
      resolveName env name = placeholderText) := by
  have hnametw : name.takeWhile (fun ch => !(ch == ':')) = name := by
    apply takeWhile_of_all
    intro c hc
    simp [(hnc c hc).1]
  have hA : handleTemplating env ('$' :: lbrace :: (name ++ rbrace :: rest)) =
      resolveName env name ++ handleTemplating env rest := by
    rw [handleTemplating_step env _ _ _ (parsePlaceholder_simple name rest hname hnc)]
    rw [hnametw, drop_glue]
  have hinner : (name ++ ':' :: op :: dflt).takeWhile (fun ch => !(ch == ':')) = name := by
    apply takeWhile_glue
    · simp
    · intro c hc
      simp [(hnc c hc).1]
  have hdropB : (name ++ ':' :: op :: (dflt ++ rbrace :: rest)).drop
      (name.length + 2 + dflt.length + 1) = rest := by
    have hsplit : name ++ ':' :: op :: (dflt ++ rbrace :: rest) =
        (name ++ ':' :: op :: (dflt ++ [rbrace])) ++ rest := by simp
    have hlen : name.length + 2 + dflt.length + 1 =
        (name ++ ':' :: op :: (dflt ++ [rbrace])).length := by
      simp
      omega
    rw [hsplit, hlen, List.drop_left]
  have hB : handleTemplating env
      ('$' :: lbrace :: (name ++ ':' :: op :: (dflt ++ rbrace :: rest))) =
      resolveName env name ++ handleTemplating env rest := by
    rw [handleTemplating_step env _ _ _ (parsePlaceholder_dflt name dflt rest op hname hnc hop hd)]
    rw [hinner, hdropB]
  refine ⟨?_, ?_, ?_, ?_, ?_⟩
  · rw [handleTemplating_pre env pre hpre, hA, List.append_assoc]
  · rw [handleTemplating_pre env pre hpre, hB, List.append_assoc]
  · intro h
    simp [resolveName, h]
  · intro h1 h2
    simp [resolveName, h1, h2]
  · intro h1 h2
    simp [resolveName, h1, h2]

/-- Witness for C4: the specification's own example, an unset variable
with a literal default, resolves to the generic placeholder value and
ignores the default. -/
theorem handleTemplating_placeholder_witness :
    handleTemplating (fun _ => [])
        ("url: ".data ++ '$' :: lbrace :: ("API_URL".data ++ ':' :: '=' ::
          ("http://localhost:8080".data ++ rbrace :: []))) =
      "url: ".data ++ resolveName (fun _ => []) "API_URL".data ++
        handleTemplating (fun _ => []) [] :=
  (handleTemplating_placeholder (fun _ => []) "url: ".data "API_URL".data
    "http://localhost:8080".data [] '=' (by decide) (by decide) (by decide)
    (Or.inr rfl) (by decide)).2.1

/-! ### Claim C5: materialization depends on the map iteration order -/

/-- Evaluation of `expandRegexPath` under two iteration orders of the
same replacement table (both orders are permutations of the map's
entries, and Go map iteration order is unspecified): the named-capture
path from the repository's own unit test materializes differently, so
re-running materialization on the same input need not yield identical
output. -/
theorem expandRegexPath_order_dependent :
    hexFirstOrder.Perm regexReplacements ∧
    expandRegexPathOrd regexReplacements testIdPath = "/tests/test-id-123" ∧
    expandRegexPathOrd hexFirstOrder testIdPath = "/tests/(?<test_id>abc123def456)" ∧
    expandRegexPathOrd hexFirstOrder testIdPath ≠
      expandRegexPathOrd regexReplacements testIdPath := by
  refine ⟨by decide, by decide, by decide, by decide⟩
